import Mathlib

/-!
Verification development for the KLV (Key-Length-Value) codec of the
`mpegts_learn` repository (crate `klv`).

Shallow embedding conventions:
* a byte buffer (`&[u8]`) is a `List Nat` whose entries are octet values;
* Rust panics (out-of-range indexing `buf[i]`, out-of-range slicing
  `&buf[a..b]`, `todo!()`/`unimplemented!()`) are modelled as
  `Except.error ()` (resp. a dedicated error constructor for the serde
  layer), so that "never panics" is `Except.isOk`;
* big-endian multi-byte reads/writes (crate `byteorder`) are modelled with
  explicit arithmetic on `Nat`, with `% 256` truncation where the source
  casts (`as u8`, `as u16`, `as u32`);
* fallible functions return `Except`.

Definitions follow `src/klv/src/lib.rs`, `src/klv/src/value.rs`,
`src/klv/src/uasdls.rs`, `src/klv/src/se.rs` and `src/klv/src/de.rs`;
the few items those files use that are not present under `src/`
(`parse_length`, the `error::Error` enum) are modelled from the spec and
marked as such in their doc comments.
-/

set_option maxRecDepth 20000

deriving instance DecidableEq for Except

/-- Rust panic-aware indexing: `buf[i]` panics when `i ≥ buf.len()`. -/
def getP (l : List Nat) (i : Nat) : Except Unit Nat :=
  match l[i]? with
  | some x => .ok x
  | none => .error ()

/-- Rust panic-aware slicing `&buf[a..b]`: panics unless `a ≤ b ≤ buf.len()`. -/
def sliceP (l : List Nat) (a b : Nat) : Except Unit (List Nat) :=
  if a ≤ b ∧ b ≤ l.length then .ok ((l.drop a).take (b - a)) else .error ()

/-- Big-endian unsigned value of a byte list (the whole list). -/
def readBE (l : List Nat) : Nat := l.foldl (fun a b => a * 256 + b) 0

/-- `byteorder::BigEndian::read_uN` family: reads the first `w` bytes of the
slice big-endian, panicking when fewer than `w` bytes are available. -/
def beReadP (w : Nat) (v : List Nat) : Except Unit Nat :=
  if w ≤ v.length then .ok (readBE (v.take w)) else .error ()

/-- `LengthOctet` from `src/klv/src/lib.rs`. -/
inductive LengthOctet
  | Short (n : Nat)
  | Indefinite
  | Long (k : Nat)
  | Reserved
deriving DecidableEq

/-- `LengthOctet::from_u8`. `b & FIRST_BIT != FIRST_BIT` (bit 7 clear) is
`b / 128 % 2 = 0`, and `b & BIT_MASK` (= `b & 0x7F`) is `b % 128`. -/
def LengthOctet.from_u8 (b : Nat) : LengthOctet :=
  if b / 128 % 2 = 0 then .Short (b % 128)
  else if b = 255 then .Reserved
  else if b = 128 then .Indefinite
  else .Long (b % 128)

/-- `LengthOctet::encode_len`. -/
def LengthOctet.encode_len (size : Nat) : Nat :=
  if size ≤ 127 then 1
  else if size ≤ 255 then 2
  else if size ≤ 65535 then 3
  else 5

/-- `LengthOctet::length_to_buf`: the octets written (the writer is a growing
buffer, so `write` writes everything). The `% 256`, `% 65536`, `% 2^32`
truncations are the source's `as u8` / `as u16` / `as u32` casts. -/
def LengthOctet.length_to_buf (size : Nat) : List Nat :=
  if size ≤ 127 then [size]
  else if size ≤ 255 then [0x81, size % 256]
  else if size ≤ 65535 then
    [0x82, size % 65536 / 256, size % 65536 % 256]
  else
    [0x84, size % 2 ^ 32 / 2 ^ 24, size % 2 ^ 32 / 2 ^ 16 % 256,
      size % 2 ^ 32 / 2 ^ 8 % 256, size % 2 ^ 32 % 256]

/-- The decoding procedure of claim C1: classify the first octet with
`LengthOctet::from_u8`; for `Short(n)` the content length is `n`; for
`Long(k)` read the next `k` octets as a big-endian unsigned value. -/
def decodeLength (l : List Nat) : Option Nat :=
  match l with
  | [] => none
  | b :: rest =>
    match LengthOctet.from_u8 b with
    | .Short n => some n
    | .Long k => if k ≤ rest.length then some (readBE (rest.take k)) else none
    | .Indefinite => none
    | .Reserved => none

/-- `ParseError` from `src/klv/src/lib.rs` (the `ValueError` payload is
dropped: it is an error message string). -/
inductive ParseError
  | UndefinedID (b : Nat)
  | LessLength
  | UnexpectLength (n : Nat)
  | ValueError
deriving DecidableEq

/-- `KLVGlobal::try_from_bytes`: a `KLVGlobal` is just the borrowed buffer. -/
def KLVGlobal.try_from_bytes (buf : List Nat) : Except ParseError (List Nat) :=
  if buf.length < 18 then .error .LessLength else .ok buf

/-- `KLVGlobal::key`: `&self.0[..16]`. -/
def KLVGlobal.key (buf : List Nat) : Except Unit (List Nat) :=
  sliceP buf 0 16

/-- `KLVGlobal::content_range`. -/
def KLVGlobal.content_range (buf : List Nat) :
    Except Unit (Option (Nat × Nat)) :=
  match getP buf 16 with
  | .error e => .error e
  | .ok b =>
    match LengthOctet.from_u8 b with
    | .Short x => .ok (some (17, 17 + x))
    | .Long 1 =>
      match getP buf 17 with
      | .error e => .error e
      | .ok b17 => .ok (some (18, 18 + b17))
    | .Long 2 =>
      match sliceP buf 17 19 with
      | .error e => .error e
      | .ok s => .ok (some (19, 19 + readBE s))
    | .Long 4 =>
      match sliceP buf 17 21 with
      | .error e => .error e
      | .ok s => .ok (some (21, 21 + readBE s))
    | .Long _ => .ok none
    | .Indefinite => .ok none
    | .Reserved => .ok none

/-- `KLVGlobal::content`: the declared range, else the `&self.0[18..]`
fallback. -/
def KLVGlobal.content (buf : List Nat) : Except Unit (List Nat) :=
  match KLVGlobal.content_range buf with
  | .error e => .error e
  | .ok (some (s, e)) => sliceP buf s e
  | .ok none => sliceP buf 18 buf.length

/-- `write_KLVGloval`: the bytes written and the returned size
`16 + length_len + content_len` (the writer accepts everything, so
`buf.write(content)` returns `content.len()`). `key` is a `&[u8; 16]`,
i.e. a list of length 16. -/
def write_KLVGloval (key : List Nat) (content : List Nat) :
    List Nat × Nat :=
  let lb := LengthOctet.length_to_buf content.length
  (key ++ lb ++ content, 16 + lb.length + content.length)

/-- `KLVRaw::key`: `self.0[0]`. -/
def KLVRaw.key (s : List Nat) : Except Unit Nat := getP s 0

/-- `KLVRaw::len`: `self.0[1]`. -/
def KLVRaw.len (s : List Nat) : Except Unit Nat := getP s 1

/-- `KLVRaw::content`: `&self.0[2..2 + self.len()]`. -/
def KLVRaw.content (s : List Nat) : Except Unit (List Nat) :=
  match KLVRaw.len s with
  | .error e => .error e
  | .ok len => sliceP s 2 (2 + len)

/-- One step of `KLVRawReader::next` / `KLVReader::next` starting at cursor
`current`, followed by the remaining steps. `fuel` only bounds the recursion;
every step advances the cursor by `2 + len ≥ 2`, so any `fuel ≥ buf.len`
is never exhausted (the exhaustion branch reports a panic so that it can
never be mistaken for normal termination). The step itself is the source
verbatim: return `None` when `current ≥ buf.len()`, else read
`len = buf[current + 1]` (a panic when out of range), advance the cursor to
`current + 2 + len` and yield the slice `&buf[current..current + 2 + len]`
(a panic when the end runs past the buffer). -/
def iterGo (buf : List Nat) (current : Nat) (fuel : Nat) :
    Except Unit (List (List Nat)) :=
  match fuel with
  | 0 => .error ()
  | fuel + 1 =>
    if current ≥ buf.length then .ok []
    else
      match getP buf (current + 1) with
      | .error e => .error e
      | .ok len =>
        match sliceP buf current (current + 2 + len) with
        | .error e => .error e
        | .ok s =>
          match iterGo buf (current + 2 + len) fuel with
          | .error e => .error e
          | .ok rest => .ok (s :: rest)

/-- Collecting `KLVRawReader::from_bytes(buf)` into a list of yielded
`KLVRaw` slices. -/
def KLVRawReader.collect (buf : List Nat) : Except Unit (List (List Nat)) :=
  iterGo buf 0 (buf.length + 1)

/-- Collecting `KLVReader::<K>::from_bytes(buf)`: `KLVReader::next` is
byte-for-byte the same walk as `KLVRawReader::next`, yielding `KLV` views
over the same slices. -/
def KLVReader.collect (buf : List Nat) : Except Unit (List (List Nat)) :=
  iterGo buf 0 (buf.length + 1)

/-- The `(key, content)` pair of one yielded `KLVRaw`. -/
def KLVRaw.record (s : List Nat) : Except Unit (Nat × List Nat) :=
  match KLVRaw.key s with
  | .error e => .error e
  | .ok k =>
    match KLVRaw.content s with
    | .error e => .error e
    | .ok c => .ok (k, c)

/-- Reading each yielded slice's `key()` and `content()`. -/
def recordsOf (slices : List (List Nat)) :
    Except Unit (List (Nat × List Nat)) :=
  match slices with
  | [] => .ok []
  | s :: rest =>
    match KLVRaw.record s with
    | .error e => .error e
    | .ok r =>
      match recordsOf rest with
      | .error e => .error e
      | .ok rs => .ok (r :: rs)

/-- Iterating `KLVRawReader` and reading each yielded record's `key()` and
`content()`. -/
def KLVRawReader.records (buf : List Nat) :
    Except Unit (List (Nat × List Nat)) :=
  match KLVRawReader.collect buf with
  | .error e => .error e
  | .ok slices => recordsOf slices

/-- A content buffer formed by concatenating well-formed short records:
each record is laid out as the tag octet, a length octet equal to the
payload length, then the payload. -/
def concatRecords (rs : List (Nat × List Nat)) : List Nat :=
  (rs.map (fun r => r.1 :: r.2.length :: r.2)).flatten

/-- UTF-8 validity (RFC 3629), as checked by `String::from_utf8`. -/
def utf8Valid : List Nat → Bool
  | [] => true
  | b0 :: r =>
    if b0 ≤ 0x7F then utf8Valid r
    else if 0xC2 ≤ b0 ∧ b0 ≤ 0xDF then
      match r with
      | b1 :: r1 => (0x80 ≤ b1 ∧ b1 ≤ 0xBF : Bool) && utf8Valid r1
      | [] => false
    else if 0xE0 ≤ b0 ∧ b0 ≤ 0xEF then
      match r with
      | b1 :: b2 :: r2 =>
        (if b0 = 0xE0 then (0xA0 ≤ b1 ∧ b1 ≤ 0xBF : Bool)
         else if b0 = 0xED then (0x80 ≤ b1 ∧ b1 ≤ 0x9F : Bool)
         else (0x80 ≤ b1 ∧ b1 ≤ 0xBF : Bool)) &&
        (0x80 ≤ b2 ∧ b2 ≤ 0xBF : Bool) && utf8Valid r2
      | _ => false
    else if 0xF0 ≤ b0 ∧ b0 ≤ 0xF4 then
      match r with
      | b1 :: b2 :: b3 :: r3 =>
        (if b0 = 0xF0 then (0x90 ≤ b1 ∧ b1 ≤ 0xBF : Bool)
         else if b0 = 0xF4 then (0x80 ≤ b1 ∧ b1 ≤ 0x8F : Bool)
         else (0x80 ≤ b1 ∧ b1 ≤ 0xBF : Bool)) &&
        (0x80 ≤ b2 ∧ b2 ≤ 0xBF : Bool) &&
        (0x80 ≤ b3 ∧ b3 ≤ 0xBF : Bool) && utf8Valid r3
      | _ => false
    else false

/-- Two's-complement reading of an unsigned `bits`-bit value. -/
def toSigned (bits : Nat) (n : Nat) : Int :=
  if n < 2 ^ (bits - 1) then (n : Int) else (n : Int) - 2 ^ bits

/-- `Value` from `src/klv/src/value.rs`. `String` carries the UTF-8 bytes
(`String::from_utf8` keeps exactly the input bytes once they validate);
`Timestamp` is the `SystemTime` as microseconds past the Unix epoch;
`Duration` is seconds and subsecond nanoseconds. -/
inductive Value
  | U8 (x : Nat)
  | U16 (x : Nat)
  | U32 (x : Nat)
  | U64 (x : Nat)
  | I8 (x : Int)
  | I16 (x : Int)
  | I32 (x : Int)
  | I64 (x : Int)
  | String (s : List Nat)
  | Timestamp (micros : Nat)
  | Duration (secs : Nat) (nanos : Nat)
deriving DecidableEq

/-- `Value::as_u16`: `BigEndian::read_u16` of the slice's first two bytes,
panicking when the slice is shorter. -/
def Value.as_u16 (x : List Nat) : Except Unit Value :=
  match beReadP 2 x with
  | .error e => .error e
  | .ok n => .ok (.U16 n)

/-- `Value::as_u32`. -/
def Value.as_u32 (x : List Nat) : Except Unit Value :=
  match beReadP 4 x with
  | .error e => .error e
  | .ok n => .ok (.U32 n)

/-- `Value::as_i16`. -/
def Value.as_i16 (x : List Nat) : Except Unit Value :=
  match beReadP 2 x with
  | .error e => .error e
  | .ok n => .ok (.I16 (toSigned 16 n))

/-- `Value::as_i32`. -/
def Value.as_i32 (x : List Nat) : Except Unit Value :=
  match beReadP 4 x with
  | .error e => .error e
  | .ok n => .ok (.I32 (toSigned 32 n))

/-- `Value::as_string`: `String::from_utf8(x.to_owned()).unwrap()` — a panic
on invalid UTF-8, the byte content otherwise. -/
def Value.as_string (x : List Nat) : Except Unit Value :=
  if utf8Valid x then .ok (.String x) else .error ()

/-- `Value::as_timestamp`: `BigEndian::read_u64` (a panic below 8 bytes),
then `UNIX_EPOCH.checked_add(Duration::from_micros(micros))`. With an
`i64`-seconds `SystemTime`, `checked_add` succeeds for every `u64` number of
microseconds (at most `2^64 µs < 2^45 s`), so the `ValueError` branch is
unreachable and the result is the microsecond count. -/
def Value.as_timestamp (x : List Nat) : Except Unit (Except ParseError Value) :=
  match beReadP 8 x with
  | .error e => .error e
  | .ok micros => .ok (.ok (.Timestamp micros))

/-- `UASDataset` from `src/klv/src/uasdls.rs` (MISB ST 0601 tag set). -/
inductive UASDataset
  | Checksum
  | Timestamp
  | PlatformHeadingAngle
  | PlatformPitchAngle
  | PlatformRollAngle
  | ImageSourceSensor
  | ImageCoordinateSensor
  | SensorLatitude
  | SensorLongtude
  | SensorTrueAltitude
  | SensorHorizontalFOV
  | SensorVerticalFOV
  | SensorRelativeAzimuthAngle
  | SensorRelativeElevationAngle
  | SensorRelativeRollAngle
  | SlantRange
  | TargetWidth
  | FrameCenterLatitude
  | FrameCenterLongitude
  | FrameCenterElevation
  | TargetLocationLatitude
  | TargetLocationLongitude
  | TargetLocationElevation
  | PlatformGroundSpeed
  | GroundRange
  | LSVersionNumber
deriving DecidableEq, Fintype

/-- The `#[repr(u8)]` discriminant of each `UASDataset` variant. -/
def UASDataset.as_byte : UASDataset → Nat
  | .Checksum => 1
  | .Timestamp => 2
  | .PlatformHeadingAngle => 5
  | .PlatformPitchAngle => 6
  | .PlatformRollAngle => 7
  | .ImageSourceSensor => 11
  | .ImageCoordinateSensor => 12
  | .SensorLatitude => 13
  | .SensorLongtude => 14
  | .SensorTrueAltitude => 15
  | .SensorHorizontalFOV => 16
  | .SensorVerticalFOV => 17
  | .SensorRelativeAzimuthAngle => 18
  | .SensorRelativeElevationAngle => 19
  | .SensorRelativeRollAngle => 20
  | .SlantRange => 21
  | .TargetWidth => 22
  | .FrameCenterLatitude => 23
  | .FrameCenterLongitude => 24
  | .FrameCenterElevation => 25
  | .TargetLocationLatitude => 40
  | .TargetLocationLongitude => 41
  | .TargetLocationElevation => 42
  | .PlatformGroundSpeed => 56
  | .GroundRange => 57
  | .LSVersionNumber => 65

/-- The variant with discriminant `b` — the meaning of the source's
`unsafe { std::mem::transmute(x) }` (only reached under the guards
`11 ≤ x ≤ 25` and `40 ≤ x ≤ 42`). -/
def UASDataset.ofDiscriminant (b : Nat) : Option UASDataset :=
  if b = 11 then some .ImageSourceSensor
  else if b = 12 then some .ImageCoordinateSensor
  else if b = 13 then some .SensorLatitude
  else if b = 14 then some .SensorLongtude
  else if b = 15 then some .SensorTrueAltitude
  else if b = 16 then some .SensorHorizontalFOV
  else if b = 17 then some .SensorVerticalFOV
  else if b = 18 then some .SensorRelativeAzimuthAngle
  else if b = 19 then some .SensorRelativeElevationAngle
  else if b = 20 then some .SensorRelativeRollAngle
  else if b = 21 then some .SlantRange
  else if b = 22 then some .TargetWidth
  else if b = 23 then some .FrameCenterLatitude
  else if b = 24 then some .FrameCenterLongitude
  else if b = 25 then some .FrameCenterElevation
  else if b = 40 then some .TargetLocationLatitude
  else if b = 41 then some .TargetLocationLongitude
  else if b = 42 then some .TargetLocationElevation
  else none

/-- `impl TryFrom<u8> for UASDataset`: the guard chain of `try_from`. -/
def UASDataset.try_from (b : Nat) : Option UASDataset :=
  if b = 1 then some .Checksum
  else if b = 2 then some .Timestamp
  else if b = 5 then some .PlatformHeadingAngle
  else if b = 6 then some .PlatformPitchAngle
  else if b = 7 then some .PlatformRollAngle
  else if 11 ≤ b ∧ b ≤ 25 then UASDataset.ofDiscriminant b
  else if 40 ≤ b ∧ b ≤ 42 then UASDataset.ofDiscriminant b
  else if b = 56 then some .PlatformGroundSpeed
  else if b = 57 then some .GroundRange
  else if b = 65 then some .LSVersionNumber
  else none

/-- `UASDataset::from_byte` (`DataSet::from_byte`): `Ok` ↦ `Some`,
`Err` ↦ `None`. -/
def UASDataset.from_byte (b : Nat) : Option UASDataset :=
  UASDataset.try_from b

/-- `DataSet::expect_length` for `UASDataset`: the `impl DataSet for
UASDataset` in `src/klv/src/uasdls.rs` does not override the trait method,
so the trait default — `true` for every length — applies. -/
def UASDataset.expect_length (_k : UASDataset) (_len : Nat) : Bool := true

/-- Wrapping a panic-or-value decode as `KLV::parse`'s `Ok(...)` result. -/
def okWrap (x : Except Unit Value) : Except Unit (Except ParseError Value) :=
  match x with
  | .error e => .error e
  | .ok v => .ok (.ok v)

/-- `UASDataset::value` (`DataSet::value`). -/
def UASDataset.value (k : UASDataset) (v : List Nat) :
    Except Unit (Except ParseError Value) :=
  match k with
  | .Timestamp => Value.as_timestamp v
  | .PlatformGroundSpeed | .LSVersionNumber | .Checksum =>
    match getP v 0 with
    | .error e => .error e
    | .ok b => .ok (.ok (.U8 b))
  | .PlatformHeadingAngle | .SensorTrueAltitude | .SensorHorizontalFOV
  | .SensorVerticalFOV | .FrameCenterElevation | .TargetLocationElevation =>
    okWrap (Value.as_u16 v)
  | .PlatformPitchAngle | .PlatformRollAngle => okWrap (Value.as_i16 v)
  | .SensorLatitude | .SensorLongtude | .SensorRelativeElevationAngle
  | .SensorRelativeRollAngle | .FrameCenterLatitude | .FrameCenterLongitude
  | .TargetLocationLatitude | .TargetLocationLongitude =>
    okWrap (Value.as_i32 v)
  | .SensorRelativeAzimuthAngle | .SlantRange | .TargetWidth | .GroundRange =>
    okWrap (Value.as_u32 v)
  | .ImageSourceSensor | .ImageCoordinateSensor => okWrap (Value.as_string v)

/-- `KLV::<UASDataset>::parse` over the record slice `buf`: `key()` reads
`buf[0]` and maps it through `from_byte`; an unknown byte is
`UndefinedID`; then `expect_length(self.len())` with `len = buf[1]` gates
`UnexpectLength`; finally `value(self.content())` with
`content = &buf[2..2 + len]`. -/
def KLV.parse (buf : List Nat) : Except Unit (Except ParseError Value) :=
  match getP buf 0 with
  | .error e => .error e
  | .ok b0 =>
    match UASDataset.from_byte b0 with
    | none => .ok (.error (.UndefinedID b0))
    | some k =>
      match getP buf 1 with
      | .error e => .error e
      | .ok len =>
        if UASDataset.expect_length k len = false then
          .ok (.error (.UnexpectLength len))
        else
          match sliceP buf 2 (2 + len) with
          | .error e => .error e
          | .ok c => UASDataset.value k c

/-- Parsing each slice yielded by `KLVReader::<UASDataset>`, keeping the
record's tag byte alongside. -/
def parseAllOf (slices : List (List Nat)) :
    Except Unit (List (Nat × Except ParseError Value)) :=
  match slices with
  | [] => .ok []
  | s :: rest =>
    match getP s 0 with
    | .error e => .error e
    | .ok b =>
      match KLV.parse s with
      | .error e => .error e
      | .ok r =>
        match parseAllOf rest with
        | .error e => .error e
        | .ok rs => .ok ((b, r) :: rs)

/-- Iterating `KLVReader::<UASDataset>` over a content buffer and parsing
every yielded record. -/
def uasParseAll (buf : List Nat) :
    Except Unit (List (Nat × Except ParseError Value)) :=
  match KLVReader.collect buf with
  | .error e => .error e
  | .ok slices => parseAllOf slices

/-- The UTF-8 bytes of an ASCII string (for ASCII, code points and UTF-8
bytes coincide). -/
def strBytes (s : String) : List Nat := s.data.map (fun c => c.toNat)

/-- The S1 sample content buffer (`test_uas_datalink_ls` in
`src/klv/src/uasdls.rs`, byte-identical to the spec's S1 hex dump). -/
def s1content : List Nat :=
  [2, 8, 0, 0x4, 0x6c, 0x8e, 0x20, 0x03, 0x83, 0x85,
   65, 1, 1,
   5, 2, 0x3d, 0x3b,
   6, 2, 0x15, 0x80,
   7, 2, 0x01, 0x52,
   11, 3, 0x45, 0x4f, 0x4e,
   12, 14, 0x47, 0x65, 0x6f, 0x64, 0x65, 0x74, 0x69, 0x63, 0x20, 0x57,
   0x47, 0x53, 0x38, 0x34,
   13, 4, 0x4d, 0xc4, 0xdc, 0xbb,
   14, 4, 0xb1, 0xa8, 0x6c, 0xfe,
   15, 2, 0x1f, 0x4a,
   16, 2, 0x00, 0x85,
   17, 2, 0x00, 0x4b,
   18, 4, 0x20, 0xc8, 0xd2, 0x7d,
   19, 4, 0xfc, 0xdd, 0x02, 0xd8,
   20, 4, 0xfe, 0xb8, 0xcb, 0x61,
   21, 4, 0x00, 0x8f, 0x3e, 0x61,
   22, 4, 0x00, 0x00, 0x01, 0xc9,
   23, 4, 0x4d, 0xdd, 0x8c, 0x2a,
   24, 4, 0xb1, 0xbe, 0x9e, 0xf4,
   25, 2, 0x0b, 0x85,
   40, 4, 0x4d, 0xdd, 0x8c, 0x2a,
   41, 4, 0xb1, 0xbe, 0x9e, 0xf4,
   42, 2, 0x0b, 0x85,
   56, 1, 0x2e,
   57, 4, 0x00, 0x8d, 0xd4, 0x29,
   1, 2, 0x1c, 0x5f]

/-- The parse result of the first S1 record carrying tag `t`. -/
def s1lookup (t : Nat) : Option (Except ParseError Value) :=
  match uasParseAll s1content with
  | .ok l => (l.find? (fun p => p.1 == t)).map (fun p => p.2)
  | .error _ => none

/-- Error outcomes of the reflective deserializer (`src/klv/src/de.rs`).
The repository's `error::Error` enum is not under `src/` (only `de.rs` and
`se.rs` use it); its constructors are modelled from the spec's §7 error
taxonomy and from the variants `de.rs` names. `panicTodo` stands for the
Rust `todo!()` panic, `panicIndex` for an out-of-range index or slice. -/
inductive DErr
  | panicTodo
  | panicIndex
  | TypeLength
  | TrailingCharacters
  | Key
  | ExpectedMapEnd
  | ExpectedString
  | UnsupportedLength
  | BufferTooShort
  | MissingField
  | DuplicateField
  | Message
deriving DecidableEq

/-- Modelled from the spec: `parse_length` is used by `de.rs`
(`crate::parse_length`) but is not present under `src/`. Spec §4.1 Decode:
classify the first octet; `Short(n)` consumes 1 octet with content length
`n`; `Long(k)` with `k ∈ {1,2,4}` consumes `1 + k` octets, the content
length being the big-endian unsigned value of the next `k` octets;
indefinite, reserved, or other `k` fail with `UnsupportedLength`; fewer
octets than required fail with `BufferTooShort`. Returns
`(number of length octets, content length)`. -/
def parse_length (buf : List Nat) : Except DErr (Nat × Nat) :=
  match buf with
  | [] => .error .BufferTooShort
  | b :: rest =>
    match LengthOctet.from_u8 b with
    | .Short n => .ok (1, n)
    | .Long k =>
      if k = 1 ∨ k = 2 ∨ k = 4 then
        if k ≤ rest.length then .ok (1 + k, readBE (rest.take k))
        else .error .BufferTooShort
      else .error .UnsupportedLength
    | .Indefinite => .error .UnsupportedLength
    | .Reserved => .error .UnsupportedLength

/-- `Serializer::serialize_u16` (`src/klv/src/se.rs`): a BER length 2, then
`write_u16::<BigEndian>` of the value (`% 65536` is the `u16` domain). -/
def se_u16 (v : Nat) : List Nat :=
  LengthOctet.length_to_buf 2 ++ [v % 65536 / 256, v % 65536 % 256]

/-- `Serializer::serialize_unit`: a BER length 0 and no body. -/
def se_unit : List Nat := LengthOctet.length_to_buf 0

/-- The 16 bytes of the `TESTDATA00000000` record name used by the
repository's serde tests. -/
def tdKey : List Nat := strBytes "TESTDATA00000000"

/-- `to_bytes` of `struct TestA` declared with
`#[serde(rename = "TESTDATA00000000")]` and two fields renamed `"30"` and
`"31"`, both `u16` — the serializer protocol of `se.rs`:
`serialize_struct` records the 16-byte name, each `serialize_field` appends
the parsed tag byte then the field's emitter output, and `concat` writes
name ‖ BER length of the output ‖ output. -/
def toBytesTestA (a b : Nat) : List Nat :=
  let output := [30] ++ se_u16 a ++ [31] ++ se_u16 b
  tdKey ++ LengthOctet.length_to_buf output.length ++ output

/-- `to_bytes` of `struct TestU` declared with the same record name and one
field renamed `"71"` of type `()` (the unit field of the repository's
`test_serialize_bytes_any` test). -/
def toBytesTestU : List Nat :=
  let output := [71] ++ se_unit
  tdKey ++ LengthOctet.length_to_buf output.length ++ output

/-- `Deserializer::deserialize_identifier` (`de.rs`): read the tag byte at
the cursor (an out-of-range index panics) and advance by one; serde's
derived field visitor then matches its decimal string against the declared
renames. Returns the tag byte and the new cursor. -/
def d_identifier (input : List Nat) (pos : Nat) : Except DErr (Nat × Nat) :=
  match input.get? pos with
  | some v => .ok (v, pos + 1)
  | none => .error .panicIndex

/-- `Deserializer::deserialize_u16` (`de.rs`): `TypeLength` unless the
length byte is 2, then `BigEndian::read_u16(&input[pos + 1..])` (a panic
when fewer than two bytes follow) and advance by 3. -/
def d_u16 (input : List Nat) (pos : Nat) : Except DErr (Nat × Nat) :=
  match input.get? pos with
  | none => .error .panicIndex
  | some l =>
    if l ≠ 2 then .error .TypeLength
    else
      match input.get? (pos + 1), input.get? (pos + 2) with
      | some hi, some lo => .ok (hi * 256 + lo, pos + 3)
      | _, _ => .error .panicIndex

/-- The derived `visit_map` loop for `struct TestShort { "30": u16 }`
deserialized through `KLVVisitor` (`de.rs` MapAccess): while the cursor is
before `endPos`, `next_key_seed` reads an identifier; tag 30 dispatches to
`deserialize_u16` (after the `ExpectedMapEnd` guard of `next_value_seed`,
and serde's duplicate-field check); any other tag is consumed with
`serde::de::IgnoredAny`, i.e. `deserialize_ignored_any` — which in `de.rs`
is `todo!()` and panics. `fuel` only bounds the recursion (every iteration
advances the cursor). -/
def visitTestShort (input : List Nat) (endPos : Nat) :
    Nat → Nat → Option Nat → Except DErr (Nat × Nat)
  | 0, _, _ => .error .panicIndex
  | fuel + 1, pos, f30 =>
    if pos ≥ endPos then
      match f30 with
      | some v => .ok (v, pos)
      | none => .error .MissingField
    else
      match d_identifier input pos with
      | .error e => .error e
      | .ok (tag, pos) =>
        if tag = 30 then
          match f30 with
          | some _ => .error .DuplicateField
          | none =>
            if pos ≥ endPos then .error .ExpectedMapEnd
            else
              match d_u16 input pos with
              | .error e => .error e
              | .ok (v, pos) => visitTestShort input endPos fuel pos (some v)
        else
          if pos ≥ endPos then .error .ExpectedMapEnd
          else .error .panicTodo

/-- `from_bytes::<TestShort>` (`de.rs`): `deserialize_struct` slices the
16-byte observed key, decodes the outer BER length with `parse_length`,
fails `Key` on a name mismatch, sets the cursor past the length octets and
runs the map visitor up to `cursor + content_len`; `from_bytes` finally
demands the whole input be consumed (`TrailingCharacters`). -/
def fromBytesTestShort (input : List Nat) : Except DErr Nat :=
  match sliceP input 0 16 with
  | .error _ => .error .panicIndex
  | .ok key =>
    match parse_length (input.drop 16) with
    | .error e => .error e
    | .ok (length_len, content_len) =>
      if key ≠ tdKey then .error .Key
      else
        let pos := 16 + length_len
        match visitTestShort input (pos + content_len)
            (input.length + 1) pos none with
        | .error e => .error e
        | .ok (v, finalPos) =>
          if input.length = finalPos then .ok v
          else .error .TrailingCharacters

/-- The derived `visit_map` loop for `struct TestU { "71": () }`: tag 71
dispatches to `<() as Deserialize>::deserialize`, i.e.
`Deserializer::deserialize_unit` — which in `de.rs` is `todo!()` and
panics; unknown tags go to `deserialize_ignored_any`, likewise `todo!()`. -/
def visitTestU (input : List Nat) (endPos : Nat) :
    Nat → Nat → Option Unit → Except DErr (Unit × Nat)
  | 0, _, _ => .error .panicIndex
  | _fuel + 1, pos, f71 =>
    if pos ≥ endPos then
      match f71 with
      | some v => .ok (v, pos)
      | none => .error .MissingField
    else
      match d_identifier input pos with
      | .error e => .error e
      | .ok (tag, pos) =>
        if tag = 71 then
          match f71 with
          | some _ => .error .DuplicateField
          | none =>
            if pos ≥ endPos then .error .ExpectedMapEnd
            else .error .panicTodo
        else
          if pos ≥ endPos then .error .ExpectedMapEnd
          else .error .panicTodo

/-- `from_bytes::<TestU>` (`de.rs`), as for `TestShort`. -/
def fromBytesTestU (input : List Nat) : Except DErr Unit :=
  match sliceP input 0 16 with
  | .error _ => .error .panicIndex
  | .ok key =>
    match parse_length (input.drop 16) with
    | .error e => .error e
    | .ok (length_len, content_len) =>
      if key ≠ tdKey then .error .Key
      else
        let pos := 16 + length_len
        match visitTestU input (pos + content_len)
            (input.length + 1) pos none with
        | .error e => .error e
        | .ok (v, finalPos) =>
          if input.length = finalPos then .ok v
          else .error .TrailingCharacters

theorem getP_shift (l₁ l₂ : List Nat) (i : Nat) :
    getP (l₁ ++ l₂) (l₁.length + i) = getP l₂ i := by
  unfold getP
  rw [List.getElem?_append_right (by omega),
    show l₁.length + i - l₁.length = i by omega]

theorem drop_shift (l₁ l₂ : List Nat) (i : Nat) :
    (l₁ ++ l₂).drop (l₁.length + i) = l₂.drop i := by
  rw [← List.drop_drop]
  simp [List.drop_left]

theorem sliceP_shift (l₁ l₂ : List Nat) (a b : Nat) :
    sliceP (l₁ ++ l₂) (l₁.length + a) (l₁.length + b) = sliceP l₂ a b := by
  unfold sliceP
  rw [List.length_append]
  by_cases h : a ≤ b ∧ b ≤ l₂.length
  · rw [if_pos (by omega), if_pos h, drop_shift,
      show l₁.length + b - (l₁.length + a) = b - a by omega]
  · rw [if_neg (by omega), if_neg h]

theorem length_to_buf_length (n : Nat) :
    (LengthOctet.length_to_buf n).length = LengthOctet.encode_len n := by
  unfold LengthOctet.length_to_buf LengthOctet.encode_len
  split <;> try rfl
  split <;> try rfl
  split <;> rfl

/-- The written frame, reassociated so that the content is the final
summand. -/
theorem write_assoc (key c : List Nat) :
    (write_KLVGloval key c).1 =
      (key ++ LengthOctet.length_to_buf c.length) ++ c := by
  simp [write_KLVGloval, List.append_assoc]

theorem content_range_write (key c : List Nat) (hk : key.length = 16)
    (hc : c.length ≤ 4294967295) :
    KLVGlobal.content_range (write_KLVGloval key c).1 =
      .ok (some (16 + (LengthOctet.length_to_buf c.length).length,
        16 + (LengthOctet.length_to_buf c.length).length + c.length)) := by
  have hshift : ∀ (X : List Nat) (i : Nat), getP (key ++ X) (16 + i) = getP X i := by
    intro X i
    rw [show 16 + i = key.length + i by omega]
    exact getP_shift key X i
  have hslice : ∀ (X : List Nat) (a b : Nat),
      sliceP (key ++ X) (16 + a) (16 + b) = sliceP X a b := by
    intro X a b
    rw [show 16 + a = key.length + a by omega,
      show 16 + b = key.length + b by omega]
    exact sliceP_shift key X a b
  by_cases h1 : c.length ≤ 127
  · have hlb : LengthOctet.length_to_buf c.length = [c.length] := by
      unfold LengthOctet.length_to_buf
      rw [if_pos h1]
    have hbuf : (write_KLVGloval key c).1 = key ++ ([c.length] ++ c) := by
      simp [write_KLVGloval, hlb]
    have hg : getP (key ++ ([c.length] ++ c)) 16 = .ok c.length := by
      simpa [getP] using hshift ([c.length] ++ c) 0
    have hf : LengthOctet.from_u8 c.length = .Short c.length := by
      unfold LengthOctet.from_u8
      rw [if_pos (by omega), Nat.mod_eq_of_lt (by omega)]
    rw [hbuf, hlb]
    unfold KLVGlobal.content_range
    rw [hg]
    simp [hf]
  · by_cases h2 : c.length ≤ 255
    · have hlb : LengthOctet.length_to_buf c.length = [129, c.length] := by
        unfold LengthOctet.length_to_buf
        rw [if_neg h1, if_pos h2, Nat.mod_eq_of_lt (by omega)]
      have hbuf : (write_KLVGloval key c).1 = key ++ ([129, c.length] ++ c) := by
        simp [write_KLVGloval, hlb]
      have hg : getP (key ++ ([129, c.length] ++ c)) 16 = .ok 129 := by
        simpa [getP] using hshift ([129, c.length] ++ c) 0
      have hg17 : getP (key ++ ([129, c.length] ++ c)) 17 = .ok c.length := by
        simpa [getP] using hshift ([129, c.length] ++ c) 1
      have hf : LengthOctet.from_u8 129 = .Long 1 := by decide
      rw [hbuf, hlb]
      unfold KLVGlobal.content_range
      rw [hg]
      simp only [hf]
      rw [hg17]
      simp
    · by_cases h3 : c.length ≤ 65535
      · have hlb : LengthOctet.length_to_buf c.length =
            [130, c.length / 256, c.length % 256] := by
          unfold LengthOctet.length_to_buf
          rw [if_neg h1, if_neg h2, if_pos h3,
            Nat.mod_eq_of_lt (show c.length < 65536 by omega)]
        have hbuf : (write_KLVGloval key c).1 =
            key ++ ([130, c.length / 256, c.length % 256] ++ c) := by
          simp [write_KLVGloval, hlb]
        have hg : getP (key ++ ([130, c.length / 256, c.length % 256] ++ c)) 16 =
            .ok 130 := by
          simpa [getP] using hshift ([130, c.length / 256, c.length % 256] ++ c) 0
        have hs : sliceP (key ++ ([130, c.length / 256, c.length % 256] ++ c)) 17 19 =
            .ok [c.length / 256, c.length % 256] := by
          have := hslice ([130, c.length / 256, c.length % 256] ++ c) 1 3
          rw [show (17 : Nat) = 16 + 1 by rfl, show (19 : Nat) = 16 + 3 by rfl, this]
          unfold sliceP
          rw [if_pos (by simp only [List.length_append, List.length_cons]; omega)]
          simp
        have hf : LengthOctet.from_u8 130 = .Long 2 := by decide
        have hre : readBE [c.length / 256, c.length % 256] = c.length := by
          simp only [readBE, List.foldl]
          omega
        rw [hbuf, hlb]
        unfold KLVGlobal.content_range
        rw [hg]
        simp only [hf]
        rw [hs]
        simp [hre]
      · have hlb : LengthOctet.length_to_buf c.length =
            [132, c.length / 2 ^ 24, c.length / 2 ^ 16 % 256,
              c.length / 2 ^ 8 % 256, c.length % 256] := by
          unfold LengthOctet.length_to_buf
          rw [if_neg h1, if_neg h2, if_neg h3,
            Nat.mod_eq_of_lt (show c.length < 2 ^ 32 by omega)]
        set q3 : Nat := c.length / 2 ^ 24 with hq3
        set q2 : Nat := c.length / 2 ^ 16 % 256 with hq2
        set q1 : Nat := c.length / 2 ^ 8 % 256 with hq1
        set q0 : Nat := c.length % 256 with hq0
        have hbuf : (write_KLVGloval key c).1 =
            key ++ ([132, q3, q2, q1, q0] ++ c) := by
          simp [write_KLVGloval, hlb]
        have hg : getP (key ++ ([132, q3, q2, q1, q0] ++ c)) 16 = .ok 132 := by
          simpa [getP] using hshift ([132, q3, q2, q1, q0] ++ c) 0
        have hs : sliceP (key ++ ([132, q3, q2, q1, q0] ++ c)) 17 21 =
            .ok [q3, q2, q1, q0] := by
          have := hslice ([132, q3, q2, q1, q0] ++ c) 1 5
          rw [show (17 : Nat) = 16 + 1 by rfl, show (21 : Nat) = 16 + 5 by rfl, this]
          unfold sliceP
          rw [if_pos (by simp only [List.length_append, List.length_cons]; omega)]
          simp
        have hf : LengthOctet.from_u8 132 = .Long 4 := by decide
        have hre : readBE [q3, q2, q1, q0] = c.length := by
          simp only [readBE, List.foldl]
          rw [hq3, hq2, hq1, hq0]
          omega
        rw [hbuf, hlb]
        unfold KLVGlobal.content_range
        rw [hg]
        simp only [hf]
        rw [hs]
        simp [hre]

theorem content_write (key c : List Nat) (hk : key.length = 16)
    (hc : c.length ≤ 4294967295) :
    KLVGlobal.content (write_KLVGloval key c).1 = .ok c := by
  unfold KLVGlobal.content
  rw [content_range_write key c hk hc]
  have hpre : (key ++ LengthOctet.length_to_buf c.length).length =
      16 + (LengthOctet.length_to_buf c.length).length := by
    simp [List.length_append, hk]
  have := sliceP_shift (key ++ LengthOctet.length_to_buf c.length) c 0 c.length
  rw [write_assoc]
  simp only [Except.bind]
  rw [hpre] at this
  simpa [sliceP] using this

theorem concat_cons (r : Nat × List Nat) (rest : List (Nat × List Nat)) :
    concatRecords (r :: rest) =
      r.1 :: r.2.length :: (r.2 ++ concatRecords rest) := by
  simp [concatRecords]

theorem concat_length_ge (rs : List (Nat × List Nat)) :
    rs.length ≤ (concatRecords rs).length := by
  induction rs with
  | nil => simp [concatRecords]
  | cons r rest ih =>
    rw [concat_cons]
    simp only [List.length_cons, List.length_append]
    omega

theorem iterGo_concat :
    ∀ (rs : List (Nat × List Nat)) (pre : List Nat) (fuel : Nat),
      rs.length < fuel →
      iterGo (pre ++ concatRecords rs) pre.length fuel =
        .ok (rs.map (fun r => r.1 :: r.2.length :: r.2)) := by
  intro rs
  induction rs with
  | nil =>
    intro pre fuel hf
    match fuel with
    | 0 => omega
    | f + 1 => simp [concatRecords, iterGo]
  | cons r rest ih =>
    intro pre fuel hf
    match fuel with
    | 0 => omega
    | f + 1 =>
      have hf' : rest.length < f := by
        simp only [List.length_cons] at hf
        omega
      rw [concat_cons]
      have hg : getP (pre ++ (r.1 :: r.2.length :: (r.2 ++ concatRecords rest)))
          (pre.length + 1) = .ok r.2.length := by
        rw [getP_shift]
        simp [getP]
      have hsl : sliceP (pre ++ (r.1 :: r.2.length :: (r.2 ++ concatRecords rest)))
          pre.length (pre.length + 2 + r.2.length) =
            .ok (r.1 :: r.2.length :: r.2) := by
        rw [show pre.length = pre.length + 0 by omega,
          show pre.length + 0 + 2 + r.2.length =
            pre.length + (2 + r.2.length) by omega,
          sliceP_shift]
        unfold sliceP
        rw [if_pos (by simp only [List.length_cons, List.length_append]; omega)]
        rw [show 2 + r.2.length - 0 = r.2.length + 1 + 1 by omega]
        simp [List.take_succ_cons, List.take_left' rfl]
      have hrest : iterGo (pre ++ (r.1 :: r.2.length :: (r.2 ++ concatRecords rest)))
          (pre.length + 2 + r.2.length) f =
            .ok (rest.map (fun r => r.1 :: r.2.length :: r.2)) := by
        have hb : pre ++ (r.1 :: r.2.length :: (r.2 ++ concatRecords rest)) =
            (pre ++ (r.1 :: r.2.length :: r.2)) ++ concatRecords rest := by
          simp
        have hi : pre.length + 2 + r.2.length =
            (pre ++ (r.1 :: r.2.length :: r.2)).length := by
          simp only [List.length_append, List.length_cons]
          omega
        rw [hb, hi]
        exact ih (pre ++ (r.1 :: r.2.length :: r.2)) f hf'
      rw [show iterGo (pre ++ (r.1 :: r.2.length :: (r.2 ++ concatRecords rest)))
          pre.length (f + 1) =
          (if pre.length ≥ (pre ++ (r.1 :: r.2.length :: (r.2 ++ concatRecords rest))).length
            then .ok []
            else
              match getP (pre ++ (r.1 :: r.2.length :: (r.2 ++ concatRecords rest)))
                  (pre.length + 1) with
              | .error e => .error e
              | .ok len =>
                match sliceP (pre ++ (r.1 :: r.2.length :: (r.2 ++ concatRecords rest)))
                    pre.length (pre.length + 2 + len) with
                | .error e => .error e
                | .ok s =>
                  match iterGo (pre ++ (r.1 :: r.2.length :: (r.2 ++ concatRecords rest)))
                      (pre.length + 2 + len) f with
                  | .error e => .error e
                  | .ok rest2 => .ok (s :: rest2)) from rfl]
      rw [if_neg (by simp only [List.length_append, List.length_cons]; omega)]
      rw [hg]
      simp only []
      rw [hsl, hrest]
      simp

theorem record_wellformed (r : Nat × List Nat) :
    KLVRaw.record (r.1 :: r.2.length :: r.2) = .ok (r.1, r.2) := by
  unfold KLVRaw.record KLVRaw.key KLVRaw.content KLVRaw.len
  simp [getP, sliceP]
  rw [if_pos (by omega)]

theorem recordsOf_wellformed (rs : List (Nat × List Nat)) :
    recordsOf (rs.map (fun r => r.1 :: r.2.length :: r.2)) = .ok rs := by
  induction rs with
  | nil => rfl
  | cons r rest ih =>
    simp only [List.map_cons]
    unfold recordsOf
    rw [record_wellformed, ih]

/-- Claim C1: for every `n` in the listed set, decoding the octets written
by `LengthOctet::length_to_buf(n)` yields `n` again, and the number of
octets written is minimal per the C1 cases (1 for `n ≤ 127`, 2 for
`n ≤ 255`, 3 for `n ≤ 65535`, 5 otherwise). -/
theorem c1_length_roundtrip :
    ∀ n ∈ ([0, 1, 127, 128, 255, 256, 65535, 65536, 4294967295] : List Nat),
      decodeLength (LengthOctet.length_to_buf n) = some n ∧
      (LengthOctet.length_to_buf n).length =
        (if n ≤ 127 then 1 else if n ≤ 255 then 2
         else if n ≤ 65535 then 3 else 5) := by
  decide

theorem c1_length_roundtrip_witness :
    4294967295 ∈ ([0, 1, 127, 128, 255, 256, 65535, 65536, 4294967295] : List Nat) ∧
    (decodeLength (LengthOctet.length_to_buf 4294967295) = some 4294967295 ∧
      (LengthOctet.length_to_buf 4294967295).length =
        (if 4294967295 ≤ 127 then 1 else if 4294967295 ≤ 255 then 2
         else if 4294967295 ≤ 65535 then 3 else 5)) :=
  ⟨by decide, c1_length_roundtrip 4294967295 (by decide)⟩

/-- Claim C2: for every content `c` of length at most `2^32 - 1` and every
16-byte key, viewing the bytes written by `write_KLVGloval` as a
`KLVGlobal` gives `content() = c` and `key() = key`, and `write_KLVGloval`
returns `16 + (number of length octets) + c.len`. -/
theorem c2_container_roundtrip (key c : List Nat) (hk : key.length = 16)
    (hc : c.length ≤ 4294967295) :
    KLVGlobal.key (write_KLVGloval key c).1 = .ok key ∧
    KLVGlobal.content (write_KLVGloval key c).1 = .ok c ∧
    (write_KLVGloval key c).2 =
      16 + (LengthOctet.length_to_buf c.length).length + c.length := by
  refine ⟨?_, content_write key c hk hc, rfl⟩
  unfold KLVGlobal.key sliceP
  have hlb : 1 ≤ (LengthOctet.length_to_buf c.length).length := by
    rw [length_to_buf_length]
    unfold LengthOctet.encode_len
    split
    · omega
    · split
      · omega
      · split <;> omega
  rw [if_pos (by simp [write_KLVGloval, List.length_append]; omega)]
  have : (write_KLVGloval key c).1 =
      key ++ (LengthOctet.length_to_buf c.length ++ c) := by
    simp [write_KLVGloval]
  rw [this]
  simp [List.take_left' hk]

theorem c2_container_roundtrip_witness :
    (List.replicate 16 255).length = 16 ∧ ([1, 2, 3] : List Nat).length ≤ 4294967295 ∧
    (KLVGlobal.key (write_KLVGloval (List.replicate 16 255) [1, 2, 3]).1 =
        .ok (List.replicate 16 255) ∧
      KLVGlobal.content (write_KLVGloval (List.replicate 16 255) [1, 2, 3]).1 =
        .ok [1, 2, 3] ∧
      (write_KLVGloval (List.replicate 16 255) [1, 2, 3]).2 =
        16 + (LengthOctet.length_to_buf ([1, 2, 3] : List Nat).length).length + 3) :=
  ⟨by decide, by decide,
    c2_container_roundtrip (List.replicate 16 255) [1, 2, 3] (by decide) (by decide)⟩

/-- Claim C3: for every content buffer formed by concatenating well-formed
short records `(t_i, payload_i)` with `payload_i.len ≤ 255`, iterating
`KLVRawReader::from_bytes` yields exactly one `KLVRaw` per record, in
buffer order, with `key() = t_i` and `content() = payload_i`, and then the
iterator returns `None`. -/
theorem c3_iterator_completeness (rs : List (Nat × List Nat))
    (_h : ∀ r ∈ rs, r.2.length ≤ 255) :
    KLVRawReader.records (concatRecords rs) = .ok rs := by
  unfold KLVRawReader.records KLVRawReader.collect
  have hiter := iterGo_concat rs [] ((concatRecords rs).length + 1)
    (by have := concat_length_ge rs; omega)
  simp only [List.nil_append, List.length_nil] at hiter
  rw [hiter]
  exact recordsOf_wellformed rs

theorem c3_iterator_completeness_witness :
    (∀ r ∈ ([(1, [7]), (2, [8, 9])] : List (Nat × List Nat)),
      r.2.length ≤ 255) ∧
    KLVRawReader.records (concatRecords [(1, [7]), (2, [8, 9])]) =
      .ok [(1, [7]), (2, [8, 9])] :=
  ⟨by decide, c3_iterator_completeness [(1, [7]), (2, [8, 9])] (by decide)⟩

theorem content_range_bounds (buf : List Nat) (s e : Nat)
    (h : KLVGlobal.content_range buf = .ok (some (s, e))) :
    17 ≤ s ∧ s ≤ e := by
  unfold KLVGlobal.content_range at h
  split at h
  · exact absurd h (by simp)
  · split at h
    · simp only [Except.ok.injEq, Option.some.injEq, Prod.mk.injEq] at h
      omega
    · split at h
      · exact absurd h (by simp)
      · simp only [Except.ok.injEq, Option.some.injEq, Prod.mk.injEq] at h
        omega
    · split at h
      · exact absurd h (by simp)
      · simp only [Except.ok.injEq, Option.some.injEq, Prod.mk.injEq] at h
        omega
    · split at h
      · exact absurd h (by simp)
      · simp only [Except.ok.injEq, Option.some.injEq, Prod.mk.injEq] at h
        omega
    · exact absurd h (by simp)
    · exact absurd h (by simp)
    · exact absurd h (by simp)

/-- Claim C5, amended: `KLVGlobal::try_from_bytes(buf)` returns a view iff
`buf.len ≥ 18` (the `LessLength` error otherwise); for such a buffer
`key()` never reads past the end; and `content()` never reads past the end
provided the declared content range is available and ends within the
buffer (the unsupported-length fallback `&buf[18..]` is likewise safe) —
but not unconditionally: see the counterexample. -/
theorem c5_minimum_length_contract (buf : List Nat) :
    ((KLVGlobal.try_from_bytes buf).isOk = true ↔ 18 ≤ buf.length) ∧
    (buf.length < 18 → KLVGlobal.try_from_bytes buf = .error .LessLength) ∧
    (18 ≤ buf.length → (KLVGlobal.key buf).isOk = true) ∧
    (18 ≤ buf.length → ∀ s e,
      KLVGlobal.content_range buf = .ok (some (s, e)) → e ≤ buf.length →
        (KLVGlobal.content buf).isOk = true) ∧
    (18 ≤ buf.length → KLVGlobal.content_range buf = .ok none →
      (KLVGlobal.content buf).isOk = true) := by
  refine ⟨?_, ?_, ?_, ?_, ?_⟩
  · unfold KLVGlobal.try_from_bytes
    split
    · simp only [Except.isOk, Except.toBool]
      constructor
      · intro hx
        exact absurd hx (by simp)
      · omega
    · simp only [Except.isOk, Except.toBool]
      constructor
      · intro _
        omega
      · intro _
        trivial
  · intro h
    unfold KLVGlobal.try_from_bytes
    rw [if_pos h]
  · intro h
    unfold KLVGlobal.key sliceP
    rw [if_pos (by omega)]
    rfl
  · intro h s e hr he
    have hb := content_range_bounds buf s e hr
    unfold KLVGlobal.content
    rw [hr]
    show (sliceP buf s e).isOk = true
    unfold sliceP
    rw [if_pos ⟨by omega, he⟩]
    rfl
  · intro h hr
    unfold KLVGlobal.content
    rw [hr]
    show (sliceP buf 18 buf.length).isOk = true
    unfold sliceP
    rw [if_pos ⟨by omega, Nat.le_refl _⟩]
    rfl

theorem c5_minimum_length_contract_witness :
    ((KLVGlobal.try_from_bytes (List.replicate 16 0 ++ [1, 7])).isOk = true ↔
      18 ≤ (List.replicate 16 0 ++ [1, 7]).length) ∧
    (KLVGlobal.key (List.replicate 16 0 ++ [1, 7])).isOk = true ∧
    (KLVGlobal.content (List.replicate 16 0 ++ [1, 7])).isOk = true :=
  ⟨(c5_minimum_length_contract (List.replicate 16 0 ++ [1, 7])).1,
    (c5_minimum_length_contract (List.replicate 16 0 ++ [1, 7])).2.2.1 (by decide),
    (c5_minimum_length_contract (List.replicate 16 0 ++ [1, 7])).2.2.2.1
      (by decide) 17 18 (by decide) (by decide)⟩

/-- Counterexample to claim C5 as stated: an 18-byte buffer whose length
octet declares 5 content bytes passes `try_from_bytes`, yet `content()`
slices `buf[17..22]` past the end — a panic, not a well-defined read. -/
theorem c5_content_panics_counterexample :
    KLVGlobal.try_from_bytes (List.replicate 16 0 ++ [5, 0]) =
      .ok (List.replicate 16 0 ++ [5, 0]) ∧
    (List.replicate 16 0 ++ [5, 0]).length = 18 ∧
    KLVGlobal.content (List.replicate 16 0 ++ [5, 0]) = .error () := by
  refine ⟨by decide, by decide, by decide⟩

/-- Counterexample to claim C6 as stated: on `[0x01, 0x03, 0x00, 0x01]`
the iterator does not halt cleanly — the very first `next()` panics
(slice end `5` out of range for length `4`), yielding no record. -/
theorem c6_truncation_counterexample :
    (KLVRawReader.records [1, 3, 0, 1]).isOk = false := by decide

/-- Claim C6, amended: on the truncated input `[0x01, 0x03, 0x00, 0x01]`
(whose first record claims 3 content bytes while only 2 follow), both
`KLVRawReader` and `KLVReader` panic on the first `next()` call — slicing
`buf[0..5]` out of range — instead of halting silently; no record is
yielded. -/
theorem c6_truncation_panics :
    KLVRawReader.records [1, 3, 0, 1] = .error () ∧
    KLVRawReader.collect [1, 3, 0, 1] = .error () ∧
    KLVReader.collect [1, 3, 0, 1] = .error () := by
  refine ⟨by decide, by decide, by decide⟩

theorem okWrap_shape (x : Except Unit Value) :
    (∃ e, okWrap x = .error e) ∨ (∃ v, okWrap x = .ok (.ok v)) := by
  cases x with
  | error e => exact .inl ⟨e, rfl⟩
  | ok v => exact .inr ⟨v, rfl⟩

theorem as_timestamp_shape (x : List Nat) :
    (∃ e, Value.as_timestamp x = .error e) ∨
    (∃ v, Value.as_timestamp x = .ok (.ok v)) := by
  unfold Value.as_timestamp
  cases hb : beReadP 8 x with
  | error e => exact .inl ⟨e, rfl⟩
  | ok m => exact .inr ⟨Value.Timestamp m, rfl⟩

/-- `UASDataset::value` either panics or succeeds: it never produces a
`ParseError` (in particular never `UnexpectLength`); the `ValueError`
branch of `as_timestamp` is unreachable for `u64` microseconds. -/
theorem value_result_shape (k : UASDataset) (c : List Nat) :
    (∃ e, UASDataset.value k c = .error e) ∨
    (∃ v, UASDataset.value k c = .ok (.ok v)) := by
  cases k <;>
    first
      | exact as_timestamp_shape c
      | exact okWrap_shape (Value.as_u16 c)
      | exact okWrap_shape (Value.as_i16 c)
      | exact okWrap_shape (Value.as_i32 c)
      | exact okWrap_shape (Value.as_u32 c)
      | exact okWrap_shape (Value.as_string c)
      | (cases hb : getP c 0 with
          | error e => exact .inl ⟨e, by simp [UASDataset.value, hb]⟩
          | ok b => exact .inr ⟨Value.U8 b, by simp [UASDataset.value, hb]⟩)

/-- Claim C7, amended: `KLV::<UASDataset>::parse` never returns the
`UnexpectLength` error, for any record slice: the `impl DataSet for
UASDataset` does not override `expect_length`, so the trait default accepts
every length and a fixed-width tag with a mismatched length byte is handed
to `value()` anyway (which decodes from the first width bytes, or panics
when fewer are available). -/
theorem c7_no_unexpected_length (buf : List Nat) (n : Nat) :
    KLV.parse buf ≠ .ok (.error (.UnexpectLength n)) := by
  unfold KLV.parse
  cases h0 : getP buf 0 with
  | error e => simp
  | ok b0 =>
    cases hf : UASDataset.from_byte b0 with
    | none => simp [hf]
    | some k =>
      cases h1 : getP buf 1 with
      | error e => simp [hf, h1]
      | ok len =>
        cases hs : sliceP buf 2 (2 + len) with
        | error e => simp [hf, h1, hs, UASDataset.expect_length]
        | ok c =>
          rcases value_result_shape k c with ⟨e, he⟩ | ⟨v, hv⟩
          · simp [hf, h1, hs, UASDataset.expect_length, he]
          · simp [hf, h1, hs, UASDataset.expect_length, hv]

/-- Counterexample to claim C7 as stated: `PlatformHeadingAngle` (tag 5)
has fixed width 2, yet the record `[5, 3, 61, 59, 0]` with length byte 3
parses to `U16(15675)` (decoded from the first two content bytes) instead
of returning `UnexpectLength`. -/
theorem c7_fixed_width_counterexample :
    KLV.parse [5, 3, 61, 59, 0] = .ok (.ok (.U16 15675)) ∧
    KLV.parse [5, 3, 61, 59, 0] ≠ .ok (.error (.UnexpectLength 3)) := by
  refine ⟨by decide, by decide⟩

/-- Claim C8, amended: `UASDataset::from_byte(b)` returns `Some` exactly
for `b ∈ {1, 2} ∪ {5, 6, 7} ∪ [11, 25] ∪ [40, 42] ∪ {56, 57, 65}` (bytes
8–10 are *not* recognized: the contiguous guard starts at
`ImageSourceSensor = 11`), and for every tag the discriminant byte maps
back to that tag. -/
theorem c8_from_byte_domain :
    (∀ b, b < 256 → ((UASDataset.from_byte b).isSome = true ↔
      (b = 1 ∨ b = 2 ∨ (5 ≤ b ∧ b ≤ 7) ∨ (11 ≤ b ∧ b ≤ 25) ∨
        (40 ≤ b ∧ b ≤ 42) ∨ b = 56 ∨ b = 57 ∨ b = 65))) ∧
    (∀ t : UASDataset, UASDataset.from_byte (UASDataset.as_byte t) = some t) := by
  constructor
  · decide
  · decide

theorem c8_from_byte_domain_witness :
    (13 < 256 ∧ ((UASDataset.from_byte 13).isSome = true ↔
      (13 = 1 ∨ 13 = 2 ∨ (5 ≤ 13 ∧ 13 ≤ 7) ∨ (11 ≤ 13 ∧ 13 ≤ 25) ∨
        (40 ≤ 13 ∧ 13 ≤ 42) ∨ 13 = 56 ∨ 13 = 57 ∨ 13 = 65))) ∧
    UASDataset.from_byte (UASDataset.as_byte .SensorLatitude) =
      some .SensorLatitude :=
  ⟨⟨by decide, c8_from_byte_domain.1 13 (by decide)⟩,
    c8_from_byte_domain.2 .SensorLatitude⟩

/-- Counterexample to claim C8 as stated: byte 8 lies in the claimed range
5–25, yet `from_byte(8)` is `None` (the enumeration has no tag 8, 9
or 10). -/
theorem c8_byte8_counterexample : UASDataset.from_byte 8 = none := by decide

/-- Claim C4 (code bug): round-tripping an aggregate containing a unit
field through the reflective codec does not return the value — serializing
`struct TestU { "71": () }` succeeds, but `from_bytes` reaches
`Deserializer::deserialize_unit`, which is `todo!()` in `de.rs`, and
panics. -/
theorem c4_unit_field_roundtrip_panics :
    fromBytesTestU toBytesTestU = .error .panicTodo := by decide

/-- Claim C9 (code bug): deserializing into a narrower aggregate does not
drop unknown tags — decoding the bytes of `TestA { "30": 123u16,
"31": 345u16 }` into `TestShort { "30": u16 }` reaches tag 31, dispatches
it to `Deserializer::deserialize_ignored_any`, which is `todo!()` in
`de.rs`, and panics after having decoded field 30. -/
theorem c9_unknown_tag_skip_panics :
    fromBytesTestShort (toBytesTestA 123 345) = .error .panicTodo := by decide

/-- Claim C10: iterating the S1 sample content with
`KLVReader::<UASDataset>` and parsing each record yields, for tag 2, the
timestamp 1245257585099653 µs past the Unix epoch (2009-06-17T16:53:05.099653Z);
for tag 65, `U8(1)`; for tag 5, `U16(15675)`; for tag 13,
`I32(1304747195)`; for tag 11, the string "EON"; for tag 12, the string
"Geodetic WGS84". -/
theorem c10_s1_sample_decodes :
    s1lookup 2 = some (.ok (.Timestamp 1245257585099653)) ∧
    s1lookup 65 = some (.ok (.U8 1)) ∧
    s1lookup 5 = some (.ok (.U16 15675)) ∧
    s1lookup 13 = some (.ok (.I32 1304747195)) ∧
    s1lookup 11 = some (.ok (.String (strBytes "EON"))) ∧
    s1lookup 12 = some (.ok (.String (strBytes "Geodetic WGS84"))) := by
  refine ⟨?_, ?_, ?_, ?_, ?_, ?_⟩ <;> rfl
